import Mathlib

/- A shallow embedding of the job runner in src/main2.py of the
   krealif/testr repository. The predict job handler is modelled as a
   pure function from an environment of oracles (file existence, the
   video header data read through cv2, the stream of per frame detector
   results produced by model.predict, and fault injection for the
   progress channel and the result sink writes) and a job to an outcome
   together with the final run state: the list of progress values passed
   to job.updateProgress, the results json document and the error json
   document. A Python exception that escapes predict is the crashed
   outcome; exceptions caught by the outer handler become the error
   outcome, as in the source. Float valued data (fps, confidences, box
   coordinates) is carried as exact rationals; the percentage of line
   141 is embedded twice: prog, the exact floor idealization driving the
   loop model, and progFloat, the bit accurate binary64 evaluation in
   integer arithmetic, which differ at some inputs (claim C3). -/

namespace Testr

structure JobData where
  videoPath : String
  confidence : Rat
  modelRef : String

structure Job where
  id : String
  data : JobData

/- One raw detector box: each field is either absent (hasattr gives
   false) or a tensor modelled as a list; reading position zero of an
   empty present tensor raises, matching the unguarded zero indexing in
   extract_frame_data. -/
structure Box where
  xyxy : Option (List (List Rat))
  conf : Option (List Rat)
  cls : Option (List Int)
deriving DecidableEq

structure RawResult where
  boxes : Option (List Box)
  names : Option (List (Int × String))
deriving DecidableEq

/- One element of the streaming model.predict iterator: a frame result,
   or the iterator raising when pulled. -/
inductive StreamEvent where
  | ok (r : RawResult)
  | fault (msg : String)
deriving DecidableEq

structure Detection where
  bbox : List Rat
  confidence : Rat
  class_id : Int
  class_name : String
deriving DecidableEq

structure FrameRecord where
  frame_number : Nat
  timestamp : Rat
  detections : List Detection
deriving DecidableEq

structure VideoInfo where
  path : String
  total_frames : Nat
  fps : Rat
  width : Nat
  height : Nat
deriving DecidableEq

structure JobInfo where
  id : String
  model : String
  confidence : Rat
deriving DecidableEq

/- The results.json document of one job: missing, an error document as
   written by save_error_json, or the metadata plus frames document. -/
inductive ResultsFile where
  | absent
  | errorDoc (message : String)
  | doc (video : VideoInfo) (jobMeta : JobInfo) (frames : List FrameRecord)
deriving DecidableEq

structure Env where
  fileExists : String → Bool
  totalFrames : Nat
  fps : Rat
  width : Nat
  height : Nat
  stream : List StreamEvent
  telemetryFail : Nat → Option String
  appendFail : Nat → Bool
  outerErrorWriteFail : Bool

structure RunState where
  progressCalls : List Nat
  telemetryIdx : Nat
  results : ResultsFile
  errorFile : Option String
deriving DecidableEq

inductive Outcome where
  | success (processed_frames : Nat) (total_frames : Nat) (results_json : String)
  | error (message : String)
  | crashed (message : String)
deriving DecidableEq

def initialState : RunState := ⟨[], 0, .absent, none⟩

def video_path : String := "media/input.mp4"

def model_path : String := "src/best.pt"

def confidence : Rat := 1/4

def final_json_path (jobId : String) : String := "./temp_results/" ++ jobId ++ "/results.json"

def unboundLocalMsg : String :=
  "cannot access local variable save_error_json where it is not associated with a value"

/- Record one updateProgress call: the value is appended to the trace of
   values passed to updateProgress and the per run call counter advances.
   Whether the call itself raises is decided by Env.telemetryFail at the
   old counter value, consulted at each call site. -/
def recordProgress (s : RunState) (v : Nat) : RunState :=
  { s with progressCalls := s.progressCalls ++ [v], telemetryIdx := s.telemetryIdx + 1 }

/- The exact arithmetic idealization of the percentage of main2.py line
   141 used by the loop embedding: the floor of 100 k / total, capped at
   100, and only consulted when total is nonzero. The bit accurate
   binary64 evaluation of line 141 is progFloat below; the two differ at
   some inputs (progFloat 100 29 = 28 while this gives 29). Of the
   claims, only C3 depends on the exact per frame value; the others use
   only that the sequence is monotone in k and lies in [0, 100], which
   holds for the floating point evaluation as well. -/
def prog (total k : Nat) : Nat := min (k * 100 / total) 100

/- Round to nearest with ties to even of the fraction n / d, on
   naturals. -/
def rne2 (n d : Nat) : Nat :=
  let q := n / d
  let r := n % d
  if 2 * r < d then q
  else if d < 2 * r then q + 1
  else if q % 2 = 0 then q else q + 1

/- The integer floor of log2 (k / t) for k, t at least 1: the candidate
   from the integer logs is off by at most one, fixed by a single
   comparison of k / t against that power of two. -/
def qlog2 (k t : Nat) : Int :=
  let c : Int := (Nat.log2 k : Int) - (Nat.log2 t : Int)
  if 0 ≤ c then (if t * 2 ^ c.toNat ≤ k then c else c - 1)
  else (if t ≤ k * 2 ^ (-c).toNat then c else c - 1)

/- The 53 bit mantissa of the binary64 nearest to k / t, whose floor of
   log2 is e: the value of the rounded quotient is mant53 k t e times
   2 ^ (e - 52). -/
def mant53 (k t : Nat) (e : Int) : Nat :=
  if e ≤ 52 then rne2 (k * 2 ^ (52 - e).toNat) t
  else rne2 k (t * 2 ^ (e - 52).toNat)

/- Given the exact product M * 2 ^ (e1 - 52) of a binary64 value with
   100, round it to binary64 again (53 significant bits, nearest, ties
   to even) and truncate the result to an integer, as int() does for a
   nonnegative float. -/
def fl100floor (M : Nat) (e1 : Int) : Nat :=
  let s : Int := (Nat.log2 M : Int) - 52
  let m2 : Nat := if s ≤ 0 then M * 2 ^ (-s).toNat else rne2 M (2 ^ s.toNat)
  let ee : Int := s + e1 - 52
  if 0 ≤ ee then m2 * 2 ^ ee.toNat else m2 / 2 ^ (-ee).toNat

/- The bit accurate binary64 evaluation of main2.py line 141,
   min(int((k / total) * 100), 100), in integer arithmetic: the division
   k / total is rounded to the nearest binary64 (53 significant bits,
   round to nearest, ties to even), that value is multiplied by 100
   exactly and rounded to binary64 again, then truncated by int() and
   capped at 100. The normal floating point range is assumed, which
   covers every value this loop can compute; the total = 0 guard only
   makes the function total, the code raises there instead. This can
   differ from the exact floor formula prog: at k = 29, total = 100 the
   first rounding lands just below 29 / 100, so the product is just
   below 29 and int() truncates to 28, while floor(100 * 29 / 100) is
   29. -/
def progFloat (total k : Nat) : Nat :=
  if total = 0 ∨ k = 0 then 0
  else min (fl100floor (mant53 k total (qlog2 k total) * 100) (qlog2 k total)) 100

/- hasattr guarded zero indexing: an absent field coerces to the given
   default, a present empty tensor raises IndexError, a present
   nonempty tensor gives its first entry. -/
def coerceHead {α : Type} (dflt : α) : Option (List α) → Except String α
  | none => .ok dflt
  | some [] => .error "IndexError"
  | some (a :: _) => .ok a

def className (names : Option (List (Int × String))) (cls : Int) : String :=
  match names with
  | none => "unknown"
  | some ns =>
    match ns.lookup cls with
    | some n => n
    | none => "unknown"

def extractDetections (names : Option (List (Int × String))) :
    List Box → Except String (List Detection)
  | [] => .ok []
  | b :: bs =>
    match coerceHead ([] : List Rat) b.xyxy with
    | .error m => .error m
    | .ok xyxy =>
      match coerceHead (0 : Rat) b.conf with
      | .error m => .error m
      | .ok conf =>
        match coerceHead (-1 : Int) b.cls with
        | .error m => .error m
        | .ok cls =>
          match extractDetections names bs with
          | .error m => .error m
          | .ok rest => .ok (⟨xyxy, conf, cls, className names cls⟩ :: rest)

/- extract_frame_data of main2.py lines 67 to 93: reading result.boxes
   of a result without boxes raises AttributeError; each box is mapped
   with the hasattr guarded defaults; the timestamp is
   frame_number / fps when fps is positive and 0 otherwise. -/
def extract_frame_data (fps : Rat) (result : RawResult) (frame_number : Nat) :
    Except String FrameRecord :=
  match result.boxes with
  | none => .error "AttributeError"
  | some bs =>
    match extractDetections result.names bs with
    | .error m => .error m
    | .ok dets =>
      .ok ⟨frame_number, if 0 < fps then (frame_number : Rat) / fps else 0, dets⟩

/- update_json_results of main2.py lines 96 to 109 catches every
   exception it raises itself, so a failed append, or a document that
   has no frames list, leaves the file unchanged and the caller
   continues. -/
def update_json_results (failed : Bool) (file : ResultsFile) (frame_data : FrameRecord) :
    ResultsFile :=
  if failed then file
  else
    match file with
    | .doc v j fs => .doc v j (fs ++ [frame_data])
    | other => other

/- The outer except branch of predict, lines 170 to 183: progress is
   pushed to 100 first (a raise of that very call escapes predict: the
   crashed outcome), then the error json write is attempted inside its
   own try and its failure swallowed, then the error result object is
   returned. -/
def outerExcept (e : Env) (msg : String) (s : RunState) : Outcome × RunState :=
  match e.telemetryFail s.telemetryIdx with
  | some m => (.crashed m, recordProgress s 100)
  | none =>
    if e.outerErrorWriteFail then (.error msg, recordProgress s 100)
    else (.error msg, { recordProgress s 100 with errorFile := some msg })

/- The early return branch of predict for a missing video file, lines
   29 to 32: progress is pushed to 100, then the call of save_error_json
   at line 31 is evaluated before the nested def statement at line 112
   has executed, so it raises UnboundLocalError, which the outer handler
   catches. -/
def validationFailure (e : Env) : Outcome × RunState :=
  match e.telemetryFail 0 with
  | some m => outerExcept e m (recordProgress initialState 100)
  | none => outerExcept e unboundLocalMsg (recordProgress initialState 100)

inductive LoopResult where
  | done (k : Nat) (s : RunState)
  | raised (msg : String) (k : Nat) (s : RunState)

def LoopResult.state : LoopResult → RunState
  | .done _ s => s
  | .raised _ _ s => s

/- The for result in results loop of predict, lines 137 to 157: count
   the frame, compute the percentage (raising ZeroDivisionError when
   totalFrames is zero), push it, extract the frame data and append it
   to the results file. Any raise aborts the loop. -/
def processFrames (e : Env) : List StreamEvent → Nat → RunState → LoopResult
  | [], k, s => .done k s
  | .fault m :: _, k, s => .raised m k s
  | .ok r :: rest, k, s =>
    if e.totalFrames = 0 then .raised "division by zero" (k + 1) s
    else
      match e.telemetryFail s.telemetryIdx with
      | some m => .raised m (k + 1) (recordProgress s (prog e.totalFrames (k + 1)))
      | none =>
        match extract_frame_data e.fps r (k + 1) with
        | .error m => .raised m (k + 1) (recordProgress s (prog e.totalFrames (k + 1)))
        | .ok fr =>
          processFrames e rest (k + 1)
            { recordProgress s (prog e.totalFrames (k + 1)) with
                results := update_json_results (e.appendFail (k + 1)) s.results fr }

def initialDoc (e : Env) (job : Job) : ResultsFile :=
  .doc ⟨video_path, e.totalFrames, e.fps, e.width, e.height⟩ ⟨job.id, model_path, confidence⟩ []

def mainInit (e : Env) (job : Job) : RunState :=
  recordProgress ⟨[], 0, initialDoc e job, none⟩ 0

/- predict after validation, lines 34 to 168: write the metadata header,
   push progress 0, run the frame loop, push the final 100 and return
   the success payload; any raise goes to the outer handler. -/
def mainPhase (e : Env) (job : Job) : Outcome × RunState :=
  match e.telemetryFail 0 with
  | some m => outerExcept e m (mainInit e job)
  | none =>
    match processFrames e e.stream 0 (mainInit e job) with
    | .raised m _ s => outerExcept e m s
    | .done k s =>
      match e.telemetryFail s.telemetryIdx with
      | some m => outerExcept e m (recordProgress s 100)
      | none => (.success k e.totalFrames (final_json_path job.id), recordProgress s 100)

/- The predict job handler of main2.py. The video path, confidence and
   model reference are the hardcoded constants of lines 16 to 18; the
   job only contributes its id. -/
def predict (e : Env) (job : Job) : Outcome × RunState :=
  if video_path == "" || !(e.fileExists video_path) then validationFailure e
  else mainPhase e job

/- Well formedness of raw detector data: every present tensor field of
   every box is nonempty, and boxes itself is present, so that the
   unguarded zero indexing in extract_frame_data cannot raise. -/
def goodField {α : Type} : Option (List α) → Bool
  | some [] => false
  | _ => true

def goodBox (b : Box) : Bool := goodField b.xyxy && goodField b.conf && goodField b.cls

def goodResult (r : RawResult) : Bool :=
  match r.boxes with
  | none => false
  | some bs => bs.all goodBox

/- The terminal behaviour claim C5 asserts of a faulting run: an Error
   outcome carrying the fault message, the ErrorRecord persisted, final
   progress 100, and the records of the frames processed before the
   fault (numbered 1 .. rs.length) still persisted in order. -/
def c5Outcome (e : Env) (job : Job) (m : String) (rs : List RawResult) : Prop :=
  (predict e job).1 = .error m ∧
  (predict e job).2.errorFile = some m ∧
  ((predict e job).2.progressCalls).getLast? = some 100 ∧
  ∃ recs : List FrameRecord,
    (predict e job).2.results =
      .doc ⟨video_path, e.totalFrames, e.fps, e.width, e.height⟩
        ⟨job.id, model_path, confidence⟩ recs ∧
    recs.map (fun fr => fr.frame_number) = (List.range rs.length).map (fun i => i + 1)

/- Concrete fixtures used by witnesses and counterexamples. -/

def jobA : Job := ⟨"job-1", ⟨"a.mp4", 1/2, "m1"⟩⟩

def gEmpty : RawResult := ⟨some [], none⟩

def envC3 : Env := ⟨fun _ => true, 0, 0, 0, 0, [.ok gEmpty], fun _ => none, fun _ => false, false⟩

def envC5x : Env := ⟨fun _ => true, 1, 1, 8, 8, [.ok gEmpty], fun _ => none, fun _ => true, false⟩

def envC5w : Env :=
  ⟨fun _ => true, 4, 1, 8, 8, [.ok gEmpty, .fault "boom"], fun _ => none, fun _ => false, false⟩

def rBad : RawResult := ⟨some [⟨some [], none, none⟩], none⟩

def envC5ext : Env :=
  ⟨fun _ => true, 4, 1, 8, 8, [.ok gEmpty, .ok rBad], fun _ => none, fun _ => false, false⟩

def envC6 : Env := ⟨fun _ => false, 0, 0, 0, 0, [], fun _ => none, fun _ => false, false⟩

def envC8 : Env :=
  ⟨fun _ => true, 2, 1, 8, 8, [.ok gEmpty, .ok gEmpty], fun _ => none, fun _ => false, false⟩

def envC9 : Env :=
  ⟨fun _ => true, 2, 1, 8, 8, [.ok gEmpty, .ok gEmpty],
    fun n => if n = 1 then some "down" else none, fun _ => false, false⟩

def envC10 : Env :=
  ⟨fun _ => true, 1, 1, 8, 8, [.fault "boom"],
    fun n => if n = 1 then some "net down" else none, fun _ => false, false⟩

def envBenign : Env := ⟨fun _ => true, 1, 1, 8, 8, [.ok gEmpty], fun _ => none, fun _ => false, true⟩

/- Helper lemmas. -/

lemma pairwise_snoc {l : List Nat} {v : Nat} (h : l.Pairwise (· ≤ ·))
    (hb : ∀ x ∈ l, x ≤ v) : (l ++ [v]).Pairwise (· ≤ ·) := by
  refine List.pairwise_append.mpr ⟨h, List.pairwise_singleton _ _, ?_⟩
  intro a ha b hb2
  rw [List.mem_singleton] at hb2
  exact hb2 ▸ hb a ha

lemma getLast_snoc (l : List Nat) (v : Nat) : (l ++ [v]).getLast? = some v := by
  rw [List.getLast?_concat]

lemma range_map_shift {α : Type} (f : Nat → α) (j : Nat) :
    (List.range (j + 1)).map f = f 0 :: (List.range j).map (fun i => f (i + 1)) := by
  rw [List.range_succ_eq_map, List.map_cons, List.map_map]
  rfl

lemma prog_le_hundred (t k : Nat) : prog t k ≤ 100 := Nat.min_le_right _ _

lemma prog_mono (t : Nat) {a b : Nat} (h : a ≤ b) : prog t a ≤ prog t b :=
  min_le_min (Nat.div_le_div_right (Nat.mul_le_mul h (Nat.le_refl 100))) (Nat.le_refl _)

lemma prog_zero (t : Nat) : prog t 0 = 0 := by
  simp [prog]

/- Evaluation of the binary64 model of line 141 at total 100, frame 29:
   29 / 100 rounds to 5224175567749775 * 2 ^ (-54), just below 29 / 100;
   times 100 and rounded again this is 8162774324609023 * 2 ^ (-48),
   just below 29, so int() truncates to 28. -/
set_option maxRecDepth 8192 in
lemma progFloat_100_29 : progFloat 100 29 = 28 := by
  have t2 : (2 : Int).toNat = 2 := rfl
  have t54 : (54 : Int).toNat = 54 := rfl
  have t6 : (6 : Int).toNat = 6 := rfl
  have t48 : (48 : Int).toNat = 48 := rfl
  have h29 : Nat.log2 29 = 4 := by norm_num [Nat.log2]
  have h100 : Nat.log2 100 = 6 := by norm_num [Nat.log2]
  have he : qlog2 29 100 = -2 := by
    norm_num [qlog2, h29, h100, t2]
  have hm : mant53 29 100 (-2) = 5224175567749775 := by
    norm_num [mant53, rne2, t54]
  have hM : Nat.log2 522417556774977500 = 58 := by norm_num [Nat.log2]
  have hr : rne2 522417556774977500 64 = 8162774324609023 := by
    norm_num [rne2]
  have hf : fl100floor 522417556774977500 (-2) = 28 := by
    norm_num [fl100floor, hM, hr, t6, t48]
  norm_num [progFloat, he, hm, hf]

lemma recordProgress_trace (s : RunState) (v : Nat) :
    (recordProgress s v).progressCalls = s.progressCalls ++ [v] := rfl

lemma outerExcept_trace (e : Env) (msg : String) (s : RunState) :
    (outerExcept e msg s).2.progressCalls = s.progressCalls ++ [100] := by
  unfold outerExcept
  cases e.telemetryFail s.telemetryIdx with
  | some m => rfl
  | none =>
    by_cases h : e.outerErrorWriteFail
    · simp [h, recordProgress]
    · simp [h, recordProgress]

lemma outerExcept_no_crash (e : Env) (msg : String) (s : RunState)
    (h : e.telemetryFail s.telemetryIdx = none) :
    (outerExcept e msg s).1 = .error msg := by
  unfold outerExcept
  rw [h]
  by_cases hw : e.outerErrorWriteFail
  · simp [hw]
  · simp [hw]

lemma validation_passes (e : Env) (job : Job) (hfe : e.fileExists video_path = true) :
    predict e job = mainPhase e job := by
  unfold predict
  rw [hfe]
  rfl

lemma validation_fails (e : Env) (job : Job) (hfe : e.fileExists video_path = false) :
    predict e job = validationFailure e := by
  unfold predict
  rw [hfe]
  rfl

lemma seg_shift (t k j : Nat) :
    (List.range (j + 1)).map (fun i => prog t (k + 1 + i)) =
      prog t (k + 1) :: (List.range j).map (fun i => prog t (k + 1 + 1 + i)) := by
  rw [range_map_shift]
  congr 1
  exact List.map_congr_left fun a _ => by
    rw [show k + 1 + (a + 1) = k + 1 + 1 + a from by omega]

/- Every run of the frame loop leaves the progress trace sorted and
   bounded by 100, provided it was sorted and bounded by the percentage
   of the current frame count on entry. -/
lemma loop_sorted (e : Env) : ∀ (evs : List StreamEvent) (k : Nat) (s : RunState),
    s.progressCalls.Pairwise (· ≤ ·) →
    (∀ x ∈ s.progressCalls, x ≤ prog e.totalFrames k) →
    ((processFrames e evs k s).state.progressCalls.Pairwise (· ≤ ·) ∧
      ∀ x ∈ (processFrames e evs k s).state.progressCalls, x ≤ 100) := by
  intro evs
  induction evs with
  | nil =>
    intro k s hp hb
    exact ⟨hp, fun x hx => le_trans (hb x hx) (prog_le_hundred _ _)⟩
  | cons ev rest ih =>
    intro k s hp hb
    cases ev with
    | fault m =>
      exact ⟨hp, fun x hx => le_trans (hb x hx) (prog_le_hundred _ _)⟩
    | ok r =>
      by_cases ht : e.totalFrames = 0
      · simp only [processFrames, if_pos ht]
        exact ⟨hp, fun x hx => le_trans (hb x hx) (prog_le_hundred _ _)⟩
      · simp only [processFrames, if_neg ht]
        have hstep : ∀ x ∈ s.progressCalls, x ≤ prog e.totalFrames (k + 1) :=
          fun x hx => le_trans (hb x hx) (prog_mono _ (Nat.le_succ k))
        have hpw1 : (s.progressCalls ++ [prog e.totalFrames (k + 1)]).Pairwise (· ≤ ·) :=
          pairwise_snoc hp hstep
        have hb1 : ∀ x ∈ s.progressCalls ++ [prog e.totalFrames (k + 1)], x ≤ 100 := by
          intro x hx
          rcases List.mem_append.mp hx with h1 | h1
          · exact le_trans (hb x h1) (prog_le_hundred _ _)
          · rw [List.mem_singleton] at h1
            exact h1 ▸ prog_le_hundred _ _
        cases htl : e.telemetryFail s.telemetryIdx with
        | some m => exact ⟨hpw1, hb1⟩
        | none =>
          cases hex : extract_frame_data e.fps r (k + 1) with
          | error m => exact ⟨hpw1, hb1⟩
          | ok fr =>
            have hb2 : ∀ x ∈ s.progressCalls ++ [prog e.totalFrames (k + 1)],
                x ≤ prog e.totalFrames (k + 1) := by
              intro x hx
              rcases List.mem_append.mp hx with h1 | h1
              · exact hstep x h1
              · rw [List.mem_singleton] at h1
                exact h1 ▸ Nat.le_refl _
            exact ih (k + 1) _ hpw1 hb2

/- The values pushed by the frame loop are exactly the percentages of
   the successive frame counts: a possibly empty initial segment of
   prog total (k+1), prog total (k+2), and so on. -/
lemma loop_trace (e : Env) : ∀ (evs : List StreamEvent) (k : Nat) (s : RunState),
    ∃ j, j ≤ evs.length ∧
      (processFrames e evs k s).state.progressCalls =
        s.progressCalls ++ (List.range j).map (fun i => prog e.totalFrames (k + 1 + i)) := by
  intro evs
  induction evs with
  | nil =>
    intro k s
    exact ⟨0, Nat.zero_le _, by simp [processFrames, LoopResult.state]⟩
  | cons ev rest ih =>
    intro k s
    cases ev with
    | fault m => exact ⟨0, Nat.zero_le _, by simp [processFrames, LoopResult.state]⟩
    | ok r =>
      by_cases ht : e.totalFrames = 0
      · refine ⟨0, Nat.zero_le _, ?_⟩
        simp [processFrames, if_pos ht, LoopResult.state]
      · simp only [processFrames, if_neg ht]
        cases htl : e.telemetryFail s.telemetryIdx with
        | some m =>
          refine ⟨1, by simp only [List.length_cons]; omega, ?_⟩
          simp only [LoopResult.state, recordProgress]
          rfl
        | none =>
          cases hex : extract_frame_data e.fps r (k + 1) with
          | error m =>
            refine ⟨1, by simp only [List.length_cons]; omega, ?_⟩
            simp only [LoopResult.state, recordProgress]
            rfl
          | ok fr =>
            obtain ⟨j, hj, htr⟩ := ih (k + 1)
              { recordProgress s (prog e.totalFrames (k + 1)) with
                  results := update_json_results (e.appendFail (k + 1)) s.results fr }
            refine ⟨j + 1, by simp only [List.length_cons]; omega, ?_⟩
            rw [htr, seg_shift]
            simp [recordProgress, List.append_assoc]

/- Running the loop on a concatenation first runs the head segment; a
   raise there short circuits, completion continues with the tail. -/
lemma processFrames_append (e : Env) :
    ∀ (evs1 evs2 : List StreamEvent) (k : Nat) (s : RunState),
      processFrames e (evs1 ++ evs2) k s =
        match processFrames e evs1 k s with
        | .done k2 s2 => processFrames e evs2 k2 s2
        | .raised m k2 s2 => .raised m k2 s2 := by
  intro evs1
  induction evs1 with
  | nil => intro evs2 k s; rfl
  | cons ev rest ih =>
    intro evs2 k s
    cases ev with
    | fault m => rfl
    | ok r =>
      by_cases ht : e.totalFrames = 0
      · simp only [List.cons_append, processFrames, if_pos ht]
      · simp only [List.cons_append, processFrames, if_neg ht]
        cases htl : e.telemetryFail s.telemetryIdx with
        | some m => rfl
        | none =>
          cases hex : extract_frame_data e.fps r (k + 1) with
          | error m => rfl
          | ok fr => exact ih evs2 (k + 1) _

lemma coerceHead_good {α : Type} (d : α) {o : Option (List α)} (h : goodField o = true) :
    ∃ a, coerceHead d o = .ok a := by
  cases o with
  | none => exact ⟨d, rfl⟩
  | some l =>
    cases l with
    | nil => simp [goodField] at h
    | cons a t => exact ⟨a, rfl⟩

lemma extractDetections_good (names : Option (List (Int × String))) :
    ∀ (bs : List Box), (∀ b ∈ bs, goodBox b = true) →
      ∃ ds, extractDetections names bs = .ok ds := by
  intro bs
  induction bs with
  | nil => exact fun _ => ⟨[], rfl⟩
  | cons b bs ih =>
    intro h
    have hb := h b (List.mem_cons_self b bs)
    rw [goodBox, Bool.and_eq_true, Bool.and_eq_true] at hb
    obtain ⟨⟨h1, h2⟩, h3⟩ := hb
    obtain ⟨x1, hx1⟩ := coerceHead_good ([] : List Rat) h1
    obtain ⟨x2, hx2⟩ := coerceHead_good (0 : Rat) h2
    obtain ⟨x3, hx3⟩ := coerceHead_good (-1 : Int) h3
    obtain ⟨ds, hds⟩ := ih (fun x hx => h x (List.mem_cons_of_mem _ hx))
    refine ⟨⟨x1, x2, x3, className names x3⟩ :: ds, ?_⟩
    simp [extractDetections, hx1, hx2, hx3, hds]

lemma extract_frame_data_good (fps : Rat) (r : RawResult) (n : Nat)
    (h : goodResult r = true) :
    ∃ fr, extract_frame_data fps r n = .ok fr ∧ fr.frame_number = n := by
  cases hb : r.boxes with
  | none =>
    simp only [goodResult, hb] at h
    simp at h
  | some bs =>
    simp only [goodResult, hb] at h
    obtain ⟨ds, hds⟩ :=
      extractDetections_good r.names bs (fun b hbs => List.all_eq_true.mp h b hbs)
    refine ⟨⟨n, if 0 < fps then (n : Rat) / fps else 0, ds⟩, ?_, rfl⟩
    simp [extract_frame_data, hb, hds]

/- A fault free run of the loop over well formed frame results appends
   one record per frame with successive frame numbers, pushes the
   successive percentages, and completes. -/
lemma loop_good (e : Env) (mv : VideoInfo) (mj : JobInfo) :
    ∀ (rs : List RawResult) (k : Nat) (s : RunState) (fs : List FrameRecord),
      s.results = .doc mv mj fs →
      (∀ i, i < rs.length → e.telemetryFail (s.telemetryIdx + i) = none) →
      (∀ i, i < rs.length → e.appendFail (k + 1 + i) = false) →
      (∀ r ∈ rs, goodResult r = true) →
      0 < e.totalFrames →
      ∃ recs : List FrameRecord,
        processFrames e (rs.map StreamEvent.ok) k s =
          .done (k + rs.length)
            ⟨s.progressCalls ++
                (List.range rs.length).map (fun i => prog e.totalFrames (k + 1 + i)),
              s.telemetryIdx + rs.length,
              .doc mv mj (fs ++ recs),
              s.errorFile⟩ ∧
        recs.map (fun fr => fr.frame_number) = (List.range rs.length).map (fun i => k + 1 + i) := by
  intro rs
  induction rs with
  | nil =>
    intro k s fs hres htel happ hgood ht
    refine ⟨[], ?_, by simp⟩
    obtain ⟨pc, ti, res, ef⟩ := s
    simp only at hres
    subst hres
    simp [processFrames]
  | cons r rs ih =>
    intro k s fs hres htel happ hgood ht
    have hgr : goodResult r = true := hgood r (List.mem_cons_self _ _)
    obtain ⟨fr, hfr, hn⟩ := extract_frame_data_good e.fps r (k + 1) hgr
    have htl0 : e.telemetryFail s.telemetryIdx = none := by
      have h0 := htel 0 (by simp)
      rwa [Nat.add_zero] at h0
    have hap0 : e.appendFail (k + 1) = false := by
      have h0 := happ 0 (by simp)
      rwa [Nat.add_zero] at h0
    simp only [List.map_cons, processFrames, if_neg (Nat.pos_iff_ne_zero.mp ht), htl0, hfr,
      update_json_results, hap0, Bool.false_eq_true, if_false, hres]
    obtain ⟨recs, heq, hnum⟩ := ih (k + 1)
      { recordProgress s (prog e.totalFrames (k + 1)) with
          results := .doc mv mj (fs ++ [fr]) }
      (fs ++ [fr]) rfl
      (fun i hi => by
        rw [show (recordProgress s (prog e.totalFrames (k + 1))).telemetryIdx + i
              = s.telemetryIdx + (i + 1) from by simp [recordProgress]; omega]
        exact htel (i + 1) (by simp only [List.length_cons]; omega))
      (fun i hi => by
        rw [show k + 1 + 1 + i = k + 1 + (i + 1) from by omega]
        exact happ (i + 1) (by simp only [List.length_cons]; omega))
      (fun x hx => hgood x (List.mem_cons_of_mem _ hx))
      ht
    refine ⟨fr :: recs, ?_, ?_⟩
    · rw [heq]
      simp only [recordProgress, List.length_cons]
      rw [seg_shift]
      simp [List.append_assoc, RunState.mk.injEq, LoopResult.done.injEq]
      omega
    · simp only [List.length_cons]
      rw [List.map_cons, hn, hnum, range_map_shift]
      congr 1
      exact List.map_congr_left fun a _ => by omega

/- Every predict run ends its progress trace with a push of 100, and
   the values before that final push are sorted and at most 100. -/
lemma predict_trace (e : Env) (job : Job) :
    ∃ l : List Nat, (predict e job).2.progressCalls = l ++ [100] ∧
      l.Pairwise (· ≤ ·) ∧ ∀ x ∈ l, x ≤ 100 := by
  cases hfe : e.fileExists video_path with
  | false =>
    rw [validation_fails e job hfe]
    unfold validationFailure
    have hone : ∀ x ∈ [(100 : Nat)], x ≤ 100 := by
      intro x hx
      rw [List.mem_singleton] at hx
      omega
    cases htl : e.telemetryFail 0 with
    | some m =>
      refine ⟨[100], ?_, List.pairwise_singleton _ _, hone⟩
      rw [outerExcept_trace]
      rfl
    | none =>
      refine ⟨[100], ?_, List.pairwise_singleton _ _, hone⟩
      rw [outerExcept_trace]
      rfl
  | true =>
    rw [validation_passes e job hfe]
    unfold mainPhase
    cases htl : e.telemetryFail 0 with
    | some m =>
      refine ⟨[0], ?_, List.pairwise_singleton _ _, ?_⟩
      · rw [outerExcept_trace]
        rfl
      · intro x hx
        rw [List.mem_singleton] at hx
        omega
    | none =>
      have hinv := loop_sorted e e.stream 0 (mainInit e job)
        (by
          simp only [mainInit, recordProgress, initialState, List.nil_append]
          exact List.pairwise_singleton _ _)
        (by
          simp only [mainInit, recordProgress, initialState, List.nil_append, prog_zero]
          intro x hx
          rw [List.mem_singleton] at hx
          omega)
      cases hres : processFrames e e.stream 0 (mainInit e job) with
      | raised m k2 s3 =>
        rw [hres] at hinv
        obtain ⟨hpw, hb⟩ := hinv
        refine ⟨s3.progressCalls, ?_, hpw, hb⟩
        rw [outerExcept_trace]
      | done k s3 =>
        rw [hres] at hinv
        obtain ⟨hpw, hb⟩ := hinv
        cases htl2 : e.telemetryFail s3.telemetryIdx with
        | some m =>
          refine ⟨s3.progressCalls ++ [100], ?_, pairwise_snoc hpw hb, ?_⟩
          · dsimp only
            rw [htl2, outerExcept_trace]
            rfl
          · intro x hx
            rcases List.mem_append.mp hx with h1 | h1
            · exact hb x h1
            · rw [List.mem_singleton] at h1
              omega
        | none =>
          refine ⟨s3.progressCalls, ?_, hpw, hb⟩
          dsimp only
          rw [htl2]
          rfl

/-- Claim C1: for every job run, whichever path terminates the run
(validation failure, a fault in the frame loop, or normal completion),
the last progress value passed to updateProgress is 100: no exit path
of predict leaves the trace ending below 100. -/
theorem c1_final_progress (e : Env) (job : Job) :
    ((predict e job).2.progressCalls).getLast? = some 100 := by
  obtain ⟨l, hl, _, _⟩ := predict_trace e job
  rw [hl, getLast_snoc]

/-- Claim C2: for every job run, the sequence of progress values passed
to updateProgress is non decreasing: a later call never carries a
smaller percentage than an earlier one. -/
theorem c2_progress_monotone (e : Env) (job : Job) :
    ((predict e job).2.progressCalls).Pairwise (· ≤ ·) := by
  obtain ⟨l, hl, hpw, hb⟩ := predict_trace e job
  rw [hl]
  exact pairwise_snoc hpw hb

/-- Claim C4: the runner does not resolve the video path, confidence or
model reference from job.data; lines 16 to 18 hardcode them, so two
jobs with the same id and arbitrarily different data fields produce
identical runs. This contradicts the claim (and the code comment at
line 15 saying the parameters are extracted from job data). -/
theorem c4_job_data_ignored (e : Env) (i : String) (d1 d2 : JobData) :
    predict e ⟨i, d1⟩ = predict e ⟨i, d2⟩ := rfl

/-- Claim C3 counterexample: both halves of the claim fail at concrete
inputs. With totalFrames 0 and a stream yielding a frame, the run fails
with a division by zero (returned as the error outcome) and the
reported progress values are 0 then 100, so it is not the case that
every reported value is 100 and no division error occurs. And the
formula conjunct fails on the floating point arithmetic of line 141:
at totalFrames 100, frame 29 the code forwards 28 (progFloat, the bit
accurate binary64 model of the line) while the claimed
min(100, floor(100 k / totalFrames)) is 29 (prog, the exact floor). -/
theorem c3_counterexample :
    ((predict envC3 jobA).1 = .error "division by zero" ∧
      (predict envC3 jobA).2.progressCalls = [0, 100]) ∧
    (progFloat 100 29 = 28 ∧ prog 100 29 = 29) :=
  ⟨by decide, progFloat_100_29, by decide⟩

/-- Claim C3 amended: there is no totalFrames = 0 guard: the initial
reported progress is still 0, and if the stream yields a frame, the
percentage computation raises a division by zero which the outer
handler converts into an Error outcome with final progress 100; only an
empty stream completes successfully, reporting 0 then 100. For positive
totalFrames the forwarded percentage is min(100, int((k / totalFrames)
* 100)) evaluated in binary64 floating point, which deviates from the
claimed exact min(100, floor(100 k / totalFrames)) at reachable inputs:
at frame 29 of 100 the code forwards 28 while the exact floor is 29
(second conjunct, progFloat being the bit accurate integer model of
line 141). -/
theorem c3_zero_guard_and_rounding (e : Env) (job : Job) :
    (e.totalFrames = 0 → e.fileExists video_path = true →
      (∀ n, e.telemetryFail n = none) →
      ((∀ g rest, e.stream = StreamEvent.ok g :: rest →
          (predict e job).1 = .error "division by zero" ∧
          (predict e job).2.progressCalls = [0, 100]) ∧
        (e.stream = [] →
          (predict e job).1 = .success 0 0 (final_json_path job.id) ∧
          (predict e job).2.progressCalls = [0, 100]))) ∧
    (progFloat 100 29 = 28 ∧ prog 100 29 = 29) := by
  refine ⟨?_, progFloat_100_29, by decide⟩
  intro ht hfe htel
  constructor
  · intro g rest hst
    have hrun : predict e job = outerExcept e "division by zero" (mainInit e job) := by
      rw [validation_passes e job hfe]
      unfold mainPhase
      rw [htel 0]
      dsimp only
      rw [hst]
      simp only [processFrames, if_pos ht]
    rw [hrun]
    unfold outerExcept
    rw [htel _]
    by_cases hw : e.outerErrorWriteFail
    · simp [hw, recordProgress, mainInit, initialState]
    · simp [hw, recordProgress, mainInit, initialState]
  · intro hst
    rw [validation_passes e job hfe]
    unfold mainPhase
    rw [htel 0]
    dsimp only
    rw [hst]
    simp only [processFrames]
    rw [htel _]
    dsimp only
    rw [ht]
    simp [recordProgress, mainInit, initialState]

/-- Claim C3 witness: the amended theorem applied to the concrete zero
total frames environment with a one frame stream. -/
theorem c3_witness :
    (predict envC3 jobA).1 = .error "division by zero" ∧
    (predict envC3 jobA).2.progressCalls = [0, 100] :=
  ((c3_zero_guard_and_rounding envC3 jobA).1 rfl rfl (fun _ => rfl)).1 gEmpty [] rfl

/-- Claim C6: the claim says a missing video file yields an Error whose
message contains the path, with the not found ErrorRecord persisted.
The code instead evaluates save_error_json at line 31 before the nested
def statement at line 112 has executed, raising UnboundLocalError: the
returned message is the UnboundLocalError text, not one containing the
path, results.json is never written, and the outer handler writes
error.json with the wrong message. Progress is still pushed to 100
twice. -/
theorem c6_missing_video_bug (e : Env) (job : Job)
    (hfe : e.fileExists video_path = false)
    (htel : ∀ n, e.telemetryFail n = none)
    (hw : e.outerErrorWriteFail = false) :
    predict e job =
      (.error unboundLocalMsg, ⟨[100, 100], 2, .absent, some unboundLocalMsg⟩) := by
  rw [validation_fails e job hfe]
  unfold validationFailure
  rw [htel 0]
  dsimp only
  unfold outerExcept
  rw [htel _]
  rw [hw]
  simp [recordProgress, initialState]

/-- Claim C6 witness: the failing run evaluated on a concrete
environment whose video file does not exist. -/
theorem c6_witness :
    predict envC6 jobA =
      (.error unboundLocalMsg, ⟨[100, 100], 2, .absent, some unboundLocalMsg⟩) :=
  c6_missing_video_bug envC6 jobA rfl (fun _ => rfl) rfl

/-- Claim C7 counterexample: a malformed detection whose xyxy field is
present but empty raises an IndexError instead of degrading to a
default, so the detection mapping is not total. -/
theorem c7_counterexample :
    extract_frame_data 1 ⟨some [⟨some [], none, none⟩], none⟩ 3 = .error "IndexError" := rfl

/-- Claim C7 amended: a detection with missing (absent) fields never
raises and coerces each missing field to its safe default: empty bbox
list, confidence 0, class id -1, class name unknown. Present but
malformed (empty tensor) fields, however, raise, as the counterexample
shows. -/
theorem c7_missing_fields_defaults (n : Nat) (fps : Rat) :
    extract_frame_data fps ⟨some [⟨none, none, none⟩], none⟩ n =
      .ok ⟨n, if 0 < fps then (n : Rat) / fps else 0, [⟨[], 0, -1, "unknown"⟩]⟩ := rfl

/-- Claim C10 counterexample: a detector fault whose outer handler
progress push also raises makes the exception escape predict (the
crashed outcome) instead of being returned as an Error result. -/
theorem c10_counterexample : (predict envC10 jobA).1 = .crashed "net down" := by decide

/-- Claim C10 amended: every exception reaching the outer boundary is
returned as an Error result rather than propagating, even when the
guarded ErrorRecord write fails (the environment quantifies over that
fault), provided the progress push inside the handler does not itself
raise; a raising handler push escapes predict, as the counterexample
shows. -/
theorem c10_outer_error (e : Env) (job : Job)
    (htel : ∀ n, e.telemetryFail n = none) (m : String) :
    (predict e job).1 ≠ .crashed m := by
  cases hfe : e.fileExists video_path with
  | false =>
    rw [validation_fails e job hfe]
    unfold validationFailure
    rw [htel 0]
    dsimp only
    unfold outerExcept
    rw [htel _]
    by_cases hw : e.outerErrorWriteFail
    · simp [hw]
    · simp [hw]
  | true =>
    rw [validation_passes e job hfe]
    unfold mainPhase
    rw [htel 0]
    dsimp only
    cases hres : processFrames e e.stream 0 (mainInit e job) with
    | raised m2 k2 s3 =>
      dsimp only
      unfold outerExcept
      rw [htel _]
      by_cases hw : e.outerErrorWriteFail
      · simp [hw]
      · simp [hw]
    | done k s3 =>
      dsimp only
      rw [htel _]
      dsimp only
      simp

/-- Claim C10 witness: the amended theorem applied to a concrete fault
free telemetry environment (whose error json write is even set to
fail, exercising the swallowed guarded write). -/
theorem c10_witness : (predict envBenign jobA).1 ≠ .crashed "x" :=
  c10_outer_error envBenign jobA (fun _ => rfl) "x"

/-- Claim C5 counterexample: a sink failure while appending frame 1 of
a 1 frame video does not abort the loop and does not produce an Error:
the run returns Success, no ErrorRecord is written, and the frame
record is silently dropped, because update_json_results swallows its
own exceptions. -/
theorem c5_counterexample :
    (predict envC5x jobA).1 = .success 1 1 (final_json_path "job-1") ∧
    (predict envC5x jobA).2.errorFile = none ∧
    (predict envC5x jobA).2.results =
      .doc ⟨video_path, 1, 1, 8, 8⟩ ⟨"job-1", model_path, confidence⟩ [] := ⟨rfl, rfl, rfl⟩

/-- Claim C5 amended: a detector fault, whether the streaming iterator
itself raises when pulled (first conjunct) or the detection extraction
raises on the pulled frame result (second conjunct), aborts the loop,
sets progress to 100, persists an ErrorRecord and returns Error with
the fault message, with every previously appended FrameRecord still
persisted; but a sink append failure is caught inside
update_json_results and swallowed, the loop continues and that frame
record is simply missing, as the counterexample shows. -/
theorem c5_detector_fault :
    (∀ (e : Env) (job : Job) (rs : List RawResult) (m : String) (rest : List StreamEvent),
      e.fileExists video_path = true →
      e.stream = rs.map StreamEvent.ok ++ StreamEvent.fault m :: rest →
      (∀ r ∈ rs, goodResult r = true) →
      (∀ n, e.telemetryFail n = none) →
      (∀ n, e.appendFail n = false) →
      e.outerErrorWriteFail = false →
      0 < e.totalFrames →
      c5Outcome e job m rs) ∧
    (∀ (e : Env) (job : Job) (rs : List RawResult) (rbad : RawResult) (m : String)
        (rest : List StreamEvent),
      e.fileExists video_path = true →
      e.stream = rs.map StreamEvent.ok ++ StreamEvent.ok rbad :: rest →
      extract_frame_data e.fps rbad (rs.length + 1) = .error m →
      (∀ r ∈ rs, goodResult r = true) →
      (∀ n, e.telemetryFail n = none) →
      (∀ n, e.appendFail n = false) →
      e.outerErrorWriteFail = false →
      0 < e.totalFrames →
      c5Outcome e job m rs) := by
  constructor
  · intro e job rs m rest hfe hstream hgood htel happ hw ht
    obtain ⟨recs, heq, hnum⟩ := loop_good e
      ⟨video_path, e.totalFrames, e.fps, e.width, e.height⟩
      ⟨job.id, model_path, confidence⟩ rs 0 (mainInit e job) [] rfl
      (fun i _ => htel _) (fun i _ => happ _) hgood ht
    unfold c5Outcome
    rw [validation_passes e job hfe]
    unfold mainPhase
    rw [htel 0]
    dsimp only
    rw [hstream, processFrames_append, heq]
    dsimp only
    simp only [processFrames]
    unfold outerExcept
    rw [htel _]
    rw [hw]
    dsimp only
    refine ⟨rfl, rfl, ?_, recs, rfl, ?_⟩
    · exact getLast_snoc _ _
    · rw [hnum]
      exact List.map_congr_left fun a _ => by omega
  · intro e job rs rbad m rest hfe hstream hex hgood htel happ hw ht
    obtain ⟨recs, heq, hnum⟩ := loop_good e
      ⟨video_path, e.totalFrames, e.fps, e.width, e.height⟩
      ⟨job.id, model_path, confidence⟩ rs 0 (mainInit e job) [] rfl
      (fun i _ => htel _) (fun i _ => happ _) hgood ht
    unfold c5Outcome
    rw [validation_passes e job hfe]
    unfold mainPhase
    rw [htel 0]
    dsimp only
    rw [hstream, processFrames_append, heq]
    dsimp only
    simp only [processFrames, if_neg (Nat.pos_iff_ne_zero.mp ht)]
    rw [htel _]
    simp only [Nat.zero_add]
    rw [hex]
    dsimp only
    unfold outerExcept
    rw [htel _]
    rw [hw]
    dsimp only
    refine ⟨rfl, rfl, ?_, recs, rfl, ?_⟩
    · exact getLast_snoc _ _
    · rw [hnum]
      exact List.map_congr_left fun a _ => by omega

/-- Claim C5 witness: the amended theorem applied to two concrete runs,
one whose stream raises after one good frame (iterator fault) and one
whose second frame result carries a present but empty xyxy tensor, so
the extraction raises (extraction fault). -/
theorem c5_witness :
    c5Outcome envC5w jobA "boom" [gEmpty] ∧
    c5Outcome envC5ext jobA "IndexError" [gEmpty] :=
  ⟨c5_detector_fault.1 envC5w jobA [gEmpty] "boom" [] rfl rfl (by decide)
      (fun _ => rfl) (fun _ => rfl) rfl (by decide),
    c5_detector_fault.2 envC5ext jobA [gEmpty] rBad "IndexError" [] rfl rfl rfl (by decide)
      (fun _ => rfl) (fun _ => rfl) rfl (by decide)⟩

/-- Claim C8: a fault free run over an N frame video (the stream yields
exactly totalFrames well formed results) persists exactly N
FrameRecords whose frame numbers are 1..N contiguous and strictly
increasing in persisted order, and returns Success with processedFrames
equal to totalFrames together with the result location. -/
theorem c8_success_run (e : Env) (job : Job) (rs : List RawResult)
    (hfe : e.fileExists video_path = true)
    (hstream : e.stream = rs.map StreamEvent.ok)
    (htotal : e.totalFrames = rs.length)
    (hgood : ∀ r ∈ rs, goodResult r = true)
    (htel : ∀ n, e.telemetryFail n = none)
    (happ : ∀ n, e.appendFail n = false) :
    (predict e job).1 = .success e.totalFrames e.totalFrames (final_json_path job.id) ∧
    ∃ recs : List FrameRecord,
      (predict e job).2.results =
        .doc ⟨video_path, e.totalFrames, e.fps, e.width, e.height⟩
          ⟨job.id, model_path, confidence⟩ recs ∧
      recs.length = rs.length ∧
      recs.map (fun fr => fr.frame_number) = (List.range rs.length).map (fun i => i + 1) := by
  cases rs with
  | nil =>
    rw [validation_passes e job hfe]
    unfold mainPhase
    rw [htel 0]
    dsimp only
    rw [hstream]
    simp only [List.map_nil, processFrames]
    rw [htel _]
    refine ⟨?_, [], rfl, rfl, rfl⟩
    rw [htotal]
    rfl
  | cons r rs2 =>
    have ht : 0 < e.totalFrames := by
      rw [htotal]
      simp
    obtain ⟨recs, heq, hnum⟩ := loop_good e
      ⟨video_path, e.totalFrames, e.fps, e.width, e.height⟩
      ⟨job.id, model_path, confidence⟩ (r :: rs2) 0 (mainInit e job) [] rfl
      (fun i _ => htel _) (fun i _ => happ _) hgood ht
    have hlen : recs.length = (r :: rs2).length := by
      have hlm := congrArg List.length hnum
      simpa using hlm
    rw [validation_passes e job hfe]
    unfold mainPhase
    rw [htel 0]
    dsimp only
    rw [hstream, heq]
    dsimp only
    rw [htel _]
    dsimp only
    refine ⟨?_, recs, rfl, hlen, ?_⟩
    · rw [htotal]
      simp
    · rw [hnum]
      exact List.map_congr_left fun a _ => by omega

/-- Claim C8 witness: the theorem applied to a concrete two frame
environment. -/
theorem c8_witness :
    (predict envC8 jobA).1 =
      .success envC8.totalFrames envC8.totalFrames (final_json_path jobA.id) ∧
    ∃ recs : List FrameRecord,
      (predict envC8 jobA).2.results =
        .doc ⟨video_path, envC8.totalFrames, envC8.fps, envC8.width, envC8.height⟩
          ⟨jobA.id, model_path, confidence⟩ recs ∧
      recs.length = [gEmpty, gEmpty].length ∧
      recs.map (fun fr => fr.frame_number) =
        (List.range [gEmpty, gEmpty].length).map (fun i => i + 1) :=
  c8_success_run envC8 jobA [gEmpty, gEmpty] rfl rfl rfl (by decide)
    (fun _ => rfl) (fun _ => rfl)

/-- Claim C9 counterexample: a single failing progress push (at the
first in loop call) aborts the frame loop: the run returns an Error
carrying the telemetry failure message and persists no frame records at
all, even though the stream had two good frames left, so the job does
not continue and cannot reach Success. -/
theorem c9_counterexample :
    (predict envC9 jobA).1 = .error "down" ∧
    (predict envC9 jobA).2.results =
      .doc ⟨video_path, 2, 1, 8, 8⟩ ⟨"job-1", model_path, confidence⟩ [] := ⟨rfl, rfl⟩

/-- Claim C9 amended: a failing updateProgress call raises out of the
frame loop: the runner stops processing (frames after the failing push
are neither processed nor persisted), the outer handler pushes 100,
persists an ErrorRecord and returns an Error outcome carrying the
telemetry failure message. -/
theorem c9_telemetry_fault (e : Env) (job : Job) (rs : List RawResult) (r : RawResult)
    (rest : List StreamEvent) (m : String)
    (hfe : e.fileExists video_path = true)
    (hstream : e.stream = rs.map StreamEvent.ok ++ StreamEvent.ok r :: rest)
    (hgood : ∀ x ∈ rs, goodResult x = true)
    (htel : ∀ n, e.telemetryFail n = if n = rs.length + 1 then some m else none)
    (happ : ∀ n, e.appendFail n = false)
    (hw : e.outerErrorWriteFail = false)
    (ht : 0 < e.totalFrames) :
    (predict e job).1 = .error m ∧
    (predict e job).2.errorFile = some m ∧
    ((predict e job).2.progressCalls).getLast? = some 100 ∧
    ∃ recs : List FrameRecord,
      (predict e job).2.results =
        .doc ⟨video_path, e.totalFrames, e.fps, e.width, e.height⟩
          ⟨job.id, model_path, confidence⟩ recs ∧
      recs.length = rs.length := by
  obtain ⟨recs, heq, hnum⟩ := loop_good e
    ⟨video_path, e.totalFrames, e.fps, e.width, e.height⟩
    ⟨job.id, model_path, confidence⟩ rs 0 (mainInit e job) [] rfl
    (fun i hi => by
      rw [show (mainInit e job).telemetryIdx = 1 from rfl, htel]
      exact if_neg (by omega))
    (fun i _ => happ _) hgood ht
  have hlen : recs.length = rs.length := by
    have hlm := congrArg List.length hnum
    simpa using hlm
  rw [validation_passes e job hfe]
  unfold mainPhase
  rw [htel 0, if_neg (by omega)]
  dsimp only
  rw [hstream, processFrames_append, heq]
  dsimp only
  simp only [processFrames, if_neg (Nat.pos_iff_ne_zero.mp ht)]
  rw [show (mainInit e job).telemetryIdx = 1 from rfl]
  rw [htel (1 + rs.length), if_pos (by omega)]
  dsimp only
  unfold outerExcept
  rw [htel _, if_neg (by simp only [recordProgress]; omega)]
  rw [hw]
  dsimp only
  refine ⟨rfl, rfl, ?_, recs, rfl, hlen⟩
  exact getLast_snoc _ _

/-- Claim C9 witness: the amended theorem applied to a concrete run
whose first in loop progress push fails. -/
theorem c9_witness :
    (predict envC9 jobA).1 = .error "down" ∧
    (predict envC9 jobA).2.errorFile = some "down" ∧
    ((predict envC9 jobA).2.progressCalls).getLast? = some 100 ∧
    ∃ recs : List FrameRecord,
      (predict envC9 jobA).2.results =
        .doc ⟨video_path, envC9.totalFrames, envC9.fps, envC9.width, envC9.height⟩
          ⟨jobA.id, model_path, confidence⟩ recs ∧
      recs.length = ([] : List RawResult).length :=
  c9_telemetry_fault envC9 jobA [] gEmpty [.ok gEmpty] "down" rfl rfl (by decide)
    (fun _ => rfl) (fun _ => rfl) rfl (by decide)

end Testr
